import Mathlib

/-!
Shallow embedding of the `text_to_speech` package: the client
(`text_to_speech/client.py`), the provider registry
(`text_to_speech/registry.py`), the provider base class and voice model
(`text_to_speech/providers/base.py`), and the stream / edge / local
providers, together with theorems checking the claims of the specification.

Bytes are modelled as lists of naturals below 256; machine 32-bit words
as naturals reduced modulo `2 ^ 32`.
-/

namespace TextToSpeech

abbrev Bytes := List Nat

/-! ## MD5 (`hashlib.md5`), as used by `_generate_hash_id` in `providers/base.py` -/

def M32 : Nat := 4294967296

def mask32 (x : Nat) : Nat := x % M32

def add32 (a b : Nat) : Nat := (a + b) % M32

def not32 (x : Nat) : Nat := Nat.xor 4294967295 x

def rotl32 (x s : Nat) : Nat := ((x <<< s) ||| (x >>> (32 - s))) % M32

/-- The 64 MD5 round constants `K[i] = floor(2^32 * |sin(i+1)|)`. -/
def kTable : List Nat :=
  [0xd76aa478, 0xe8c7b756, 0x242070db, 0xc1bdceee,
   0xf57c0faf, 0x4787c62a, 0xa8304613, 0xfd469501,
   0x698098d8, 0x8b44f7af, 0xffff5bb1, 0x895cd7be,
   0x6b901122, 0xfd987193, 0xa679438e, 0x49b40821,
   0xf61e2562, 0xc040b340, 0x265e5a51, 0xe9b6c7aa,
   0xd62f105d, 0x02441453, 0xd8a1e681, 0xe7d3fbc8,
   0x21e1cde6, 0xc33707d6, 0xf4d50d87, 0x455a14ed,
   0xa9e3e905, 0xfcefa3f8, 0x676f02d9, 0x8d2a4c8a,
   0xfffa3942, 0x8771f681, 0x6d9d6122, 0xfde5380c,
   0xa4beea44, 0x4bdecfa9, 0xf6bb4b60, 0xbebfbc70,
   0x289b7ec6, 0xeaa127fa, 0xd4ef3085, 0x04881d05,
   0xd9d4d039, 0xe6db99e5, 0x1fa27cf8, 0xc4ac5665,
   0xf4292244, 0x432aff97, 0xab9423a7, 0xfc93a039,
   0x655b59c3, 0x8f0ccc92, 0xffeff47d, 0x85845dd1,
   0x6fa87e4f, 0xfe2ce6e0, 0xa3014314, 0x4e0811a1,
   0xf7537e82, 0xbd3af235, 0x2ad7d2bb, 0xeb86d391]

/-- The per-round left-rotation amounts. -/
def sTable : List Nat :=
  [7, 12, 17, 22, 7, 12, 17, 22, 7, 12, 17, 22, 7, 12, 17, 22,
   5, 9, 14, 20, 5, 9, 14, 20, 5, 9, 14, 20, 5, 9, 14, 20,
   4, 11, 16, 23, 4, 11, 16, 23, 4, 11, 16, 23, 4, 11, 16, 23,
   6, 10, 15, 21, 6, 10, 15, 21, 6, 10, 15, 21, 6, 10, 15, 21]

structure MD5State where
  a : Nat
  b : Nat
  c : Nat
  d : Nat
deriving Repr, DecidableEq

def md5F (i b c d : Nat) : Nat :=
  if i < 16 then Nat.lor (Nat.land b c) (Nat.land (not32 b) d)
  else if i < 32 then Nat.lor (Nat.land d b) (Nat.land (not32 d) c)
  else if i < 48 then Nat.xor b (Nat.xor c d)
  else Nat.xor c (Nat.lor b (not32 d))

def md5G (i : Nat) : Nat :=
  if i < 16 then i
  else if i < 32 then (5 * i + 1) % 16
  else if i < 48 then (3 * i + 5) % 16
  else (7 * i) % 16

def md5Step (m : Nat → Nat) (st : MD5State) (i : Nat) : MD5State :=
  let f := (md5F i st.b st.c st.d + st.a + kTable.getD i 0 + m (md5G i)) % M32
  ⟨st.d, add32 st.b (rotl32 f (sTable.getD i 0)), st.b, st.c⟩

/-- Little-endian 32-bit word number `j` of a 64-byte block. -/
def le32At (blk : Bytes) (j : Nat) : Nat :=
  blk.getD (4 * j) 0 + (blk.getD (4 * j + 1) 0) * 256 +
    (blk.getD (4 * j + 2) 0) * 65536 + (blk.getD (4 * j + 3) 0) * 16777216

def md5Block (st : MD5State) (blk : Bytes) : MD5State :=
  let st2 := (List.range 64).foldl (md5Step (le32At blk)) st
  ⟨add32 st.a st2.a, add32 st.b st2.b, add32 st.c st2.c, add32 st.d st2.d⟩

def md5Init : MD5State := ⟨0x67452301, 0xefcdab89, 0x98badcfe, 0x10325476⟩

/-- MD5 padding: `0x80`, zeros to 56 mod 64, then the bit length in
little-endian over 8 bytes. -/
def padMsg (msg : Bytes) : Bytes :=
  let z := (120 - (msg.length + 1) % 64) % 64
  let bitLen := (msg.length * 8) % (2 ^ 64)
  msg ++ [0x80] ++ List.replicate z 0 ++
    ((List.range 8).map fun i => (bitLen >>> (8 * i)) % 256)

/-- Split a list into consecutive chunks of `n` elements; the final chunk
may be shorter.  Also models `response.iter_content(chunk_size=n)`. -/
def chunksOf (n : Nat) (l : List α) : List (List α) :=
  if h : n = 0 ∨ l.length = 0 then []
  else l.take n :: chunksOf n (l.drop n)
termination_by l.length
decreasing_by
  push_neg at h
  simp only [List.length_drop]
  omega

def le4 (w : Nat) : Bytes := [w % 256, (w >>> 8) % 256, (w >>> 16) % 256, (w >>> 24) % 256]

/-- The 16-byte MD5 digest of a byte string. -/
def md5Digest (msg : Bytes) : Bytes :=
  let st := (chunksOf 64 (padMsg msg)).foldl md5Block md5Init
  le4 st.a ++ le4 st.b ++ le4 st.c ++ le4 st.d

def hexDigitChar (n : Nat) : Char := if n < 10 then Char.ofNat (48 + n) else Char.ofNat (87 + n)

def byteToHex (b : Nat) : List Char := [hexDigitChar (b / 16), hexDigitChar (b % 16)]

/-- The hex characters of a digest, two per byte. -/
def hexChars (digest : Bytes) : List Char := (digest.map byteToHex).flatten

/-- Model of `hashlib.md5(...).hexdigest()`: the digest as 32 lowercase hex characters. -/
def hexdigest (digest : Bytes) : String := String.mk (hexChars digest)

/-- Standard UTF-8 encoding of one code point (`str.encode` with the utf-8 codec). -/
def utf8EncodeCp (c : Nat) : Bytes :=
  if c < 0x80 then [c]
  else if c < 0x800 then [0xC0 ||| (c >>> 6), 0x80 ||| (c &&& 0x3F)]
  else if c < 0x10000 then
    [0xE0 ||| (c >>> 12), 0x80 ||| ((c >>> 6) &&& 0x3F), 0x80 ||| (c &&& 0x3F)]
  else
    [0xF0 ||| (c >>> 18), 0x80 ||| ((c >>> 12) &&& 0x3F),
     0x80 ||| ((c >>> 6) &&& 0x3F), 0x80 ||| (c &&& 0x3F)]

def strUtf8 (s : String) : Bytes := (s.data.map fun c => utf8EncodeCp c.toNat).flatten

/-- Model of `_generate_hash_id` (providers/base.py): first 16 hex characters of the
MD5 of `"{provider}:{original_id}:{language}"`. -/
def generate_hash_id (provider original_id language : String) : String :=
  String.mk
    ((hexChars (md5Digest (strUtf8 (provider ++ ":" ++ original_id ++ ":" ++ language)))).take 16)

/-! ## Voice model (`providers/base.py`) -/

structure VoiceInfo where
  id : String
  name : String
  provider : String
  language : String
  gender : String
  sample_url : String
  description : String
  hash_id : String
deriving Repr, DecidableEq

/-- Constructing a `VoiceInfo`: the dataclass fields plus `__post_init__`,
which sets `hash_id = _generate_hash_id(provider, id, language)` (the
`hash_id` field has `init=False` and default `""`, so it is always
generated at construction). -/
def mkVoiceInfo (id name provider language gender sample_url description : String) :
    VoiceInfo :=
  { id := id, name := name, provider := provider, language := language, gender := gender,
    sample_url := sample_url, description := description,
    hash_id := generate_hash_id provider id language }

/-- Model of `TTSProvider.find_voice_by_hash_id`: the first listed voice whose
`hash_id` matches case-insensitively. -/
def find_voice_by_hash_id (voices : List VoiceInfo) (h : String) : Option VoiceInfo :=
  voices.find? fun v => v.hash_id.toLower == h.toLower

/-! ## Client (`client.py`) -/

/-- The `TTSResult` dataclass: `type` 0 = processing, 1 = completed, -1 = error. -/
structure TTSResult where
  type : Int
  message : Option String
  audio : Bytes
  process : Nat
deriving Repr, DecidableEq

/-- An exception raised by provider-level code, identified by its
`str(e)` message. -/
structure PyError where
  msg : String
deriving Repr, DecidableEq

/-- What one call to the `synthesize` generator of a provider does: either it
yields `chunks` and terminates, or it yields `chunks` and then raises `e`. -/
inductive SynthOutcome where
  | ok (chunks : List Bytes)
  | err (chunks : List Bytes) (e : PyError)
deriving Repr, DecidableEq

/-- The `TTSError` exception as raised by `TTSClient.start`: carries `str(e)` as message
and, through `raise ... from e`, the original exception as its cause. -/
structure TTSError where
  message : String
  cause : PyError
deriving Repr, DecidableEq

/-- The `synthesize` method of a provider, as a function of `(text, spk_id)`. -/
abbrev Provider := String → String → SynthOutcome

structure TTSClient where
  content : String
  spk_id : String
  audio : Bytes
  provider : Provider

/-- Model of `TTSClient.__init__`: the audio accumulator starts empty. -/
def TTSClient.init (content spk_id : String) (provider : Provider) : TTSClient :=
  ⟨content, spk_id, [], provider⟩

/-- The chunk loop in `TTSClient.start`: for each chunk,
`self.audio += chunk` then `callback(TTSResult(0, audio=chunk, process=0))`.
Returns the final accumulator and the callback invocations. -/
def runChunks : Bytes → List Bytes → Bytes × List TTSResult
  | audio, [] => (audio, [])
  | audio, c :: cs =>
    let r := runChunks (audio ++ c) cs
    (r.1, ⟨0, none, c, 0⟩ :: r.2)

/-- One call to `TTSClient.start`: the updated client, the sequence of
callback invocations (when a callback is set), and the returned bytes or
the raised `TTSError`. -/
def TTSClient.start (cl : TTSClient) : TTSClient × List TTSResult × Except TTSError Bytes :=
  match cl.provider cl.content cl.spk_id with
  | .ok chunks =>
    let r := runChunks cl.audio chunks
    ({ cl with audio := r.1 }, r.2 ++ [⟨1, none, r.1, 0⟩], .ok r.1)
  | .err chunks e =>
    let r := runChunks cl.audio chunks
    ({ cl with audio := r.1 }, r.2 ++ [⟨-1, some e.msg, [], 0⟩], .error ⟨e.msg, e⟩)

/-! ## Registry (`registry.py`) -/

/-- A registered provider as the registry uses it: its `name` property,
its `list_voices()` result, and its `synthesize` method. -/
structure RProvider where
  pname : String
  voices : List VoiceInfo
  synth : Provider

/-- The `_providers` dict of the registry, in insertion order. -/
abbrev Registry := List (String × RProvider)

/-- Model of `ProviderRegistry.list_all_voices`: for each registered provider in
insertion order, fetch its voices, overwrite the `provider` field of each voice
with the registration name, and append. -/
def list_all_voices (reg : Registry) : List VoiceInfo :=
  reg.foldl
    (fun voices np => voices ++ np.2.voices.map fun v => { v with provider := np.1 }) []

inductive RegError where
  | valueError (msg : String)
  | providerError (e : PyError)
deriving Repr, DecidableEq

/-- Python truthiness of the optional `provider_name` argument: `None` and
`""` are both falsy in `if provider_name:`. -/
def truthyName : Option String → Option String
  | some n => if n = "" then none else some n
  | none => none

/-- Model of `ProviderRegistry.get`: dict lookup. -/
def regGet (reg : Registry) (n : String) : Option RProvider :=
  (reg.find? fun np => np.1 == n).map (·.2)

/-- The accumulation loop of `ProviderRegistry.synthesize`: concatenate
all chunks; an exception from the generator propagates. -/
def accumulate (out : SynthOutcome) : Except RegError Bytes :=
  match out with
  | .ok chunks => .ok chunks.flatten
  | .err _ e => .error (.providerError e)

/-- Model of `ProviderRegistry.synthesize(text, spk_id, provider_name)`. -/
def registry_synthesize (reg : Registry) (text spk_id : String)
    (provider_name : Option String) : Except RegError Bytes :=
  match truthyName provider_name with
  | some n =>
    match regGet reg n with
    | none => .error (.valueError ("Provider not found: " ++ n))
    | some p => accumulate (p.synth text spk_id)
  | none =>
    match reg.head? with
    | none => .error (.valueError "No provider registered")
    | some np => accumulate (np.2.synth text spk_id)

/-! ## Stream provider

`providers/__init__.py` does `from .stream import StreamTTSProvider`.
Since `providers/stream/` contains no `__init__.py`, the module file
`providers/stream.py` shadows the directory, so the class exported to the
client facade is the one in `stream.py`: it sends `spk_id` verbatim and
inherits the base-class `list_voices` (which returns `[]`).  The
directory variant `providers/stream/provider.py` is embedded as well for
its spk-id resolution and `list_voices`. -/

/-- Default for the `TTS_URL` environment variable. -/
def DEFAULT_URL : String := "http://49.52.4.115:8002/tts_stream"

structure PostRequest where
  url : String
  fields : List (String × String)
  streamFlag : Bool
deriving Repr, DecidableEq

structure HttpResponse where
  status : Nat
  body : Bytes
deriving Repr, DecidableEq

structure StreamTTSProvider where
  url : String
  chunk_size : Nat
deriving Repr, DecidableEq

/-- The assignment `self.url = url or DEFAULT_URL`: `None` and `""` are falsy. -/
def streamUrlOr (url : Option String) : String :=
  match url with
  | some u => if u = "" then DEFAULT_URL else u
  | none => DEFAULT_URL

/-- Model of `StreamTTSProvider.__init__(url, chunk_size)`. -/
def mkStreamTTSProvider (url : Option String) (chunk_size : Nat) : StreamTTSProvider :=
  ⟨streamUrlOr url, chunk_size⟩

/-- Calling the constructor without `chunk_size` takes the default 4096. -/
def mkStreamTTSProviderDefault (url : Option String) : StreamTTSProvider :=
  mkStreamTTSProvider url 4096

/-- The `TTSProvider.list_voices` base implementation, which the `stream.py`
class inherits: the empty list. -/
def StreamTTSProvider.list_voices (_p : StreamTTSProvider) : List VoiceInfo := []

/-- The POST request sent by the `synthesize` of `stream.py`: form fields
`text` and `spk_id` (sent verbatim), with `stream=True`. -/
def StreamTTSProvider.request (p : StreamTTSProvider) (text spk_id : String) : PostRequest :=
  ⟨p.url, [("text", text), ("spk_id", spk_id)], true⟩

/-- The call `response.raise_for_status()` raises exactly for 4xx/5xx statuses. -/
def raiseForStatus (status : Nat) : Bool := 400 ≤ status && status < 600

/-- Consuming the response in the `synthesize` of `stream.py`:
`raise_for_status`, then `iter_content(chunk_size=self.chunk_size)`
guarded by `if chunk:`. -/
def StreamTTSProvider.consume (p : StreamTTSProvider) (resp : HttpResponse) :
    Except PyError (List Bytes) :=
  if raiseForStatus resp.status then
    .error ⟨"HTTP error " ++ toString resp.status⟩
  else
    .ok ((chunksOf p.chunk_size resp.body).filter fun c => !c.isEmpty)

/-- The spk-id resolution performed by the `synthesize` of `stream/provider.py`
(and described by the spec): reverse-look up `spk_id` as a hash id in the
`list_voices` of the provider, taking the original `id` of that voice, falling back
to `spk_id` itself when no voice matches. -/
def resolveSpkId (voices : List VoiceInfo) (spk_id : String) : String :=
  match find_voice_by_hash_id voices spk_id with
  | some v => v.id
  | none => spk_id

/-- The POST request sent by the `synthesize` of `stream/provider.py`: like
`stream.py` but with `spk_id` first resolved against `list_voices`. -/
def streamPkgRequest (p : StreamTTSProvider) (voices : List VoiceInfo)
    (text spk_id : String) : PostRequest :=
  ⟨p.url, [("text", text), ("spk_id", resolveSpkId voices spk_id)], true⟩

/-! ## Temp-file providers: edge (`providers/edge/provider.py`) and local
(`providers/local/provider.py`) -/

/-- The fallible external steps of `EdgeTTSProvider._synthesize_async`
after the temp file is created: `await communicate.save(tmp_path)`, and
opening/reading the file back. -/
structure EdgeRun where
  saveStep : Except PyError Unit
  readStep : Except PyError Bytes

/-- Model of `EdgeTTSProvider._synthesize_async`: create a temp file, `try` save
and read, `finally` unlink the file if it exists.  Returns the result and
whether the temp file remains on disk afterwards. -/
def edge_synthesize_async (r : EdgeRun) : Except PyError Bytes × Bool :=
  let tmpExists := true
  let step : Except PyError Bytes × Bool :=
    match r.saveStep with
    | .error e => (.error e, tmpExists)
    | .ok _ =>
      match r.readStep with
      | .error e => (.error e, tmpExists)
      | .ok bs => (.ok bs, tmpExists)
  (step.1, if step.2 then false else step.2)

/-- The fallible external steps of `LocalTTSProvider.synthesize` after the
temp file is created: `save_to_file` + `runAndWait`, and opening/reading
the file back. -/
structure LocalRun where
  saveStep : Except PyError Unit
  readStep : Except PyError Bytes

/-- The temp-file section of `LocalTTSProvider.synthesize`: create a temp
file, save, read, then `os.unlink` — with no `try/finally` around it; the
surrounding `except` clause only logs and re-raises.  Returns the result
and whether the temp file remains on disk afterwards. -/
def local_synthesize (r : LocalRun) : Except PyError Bytes × Bool :=
  let tmpExists := true
  match r.saveStep with
  | .error e => (.error e, tmpExists)
  | .ok _ =>
    match r.readStep with
    | .error e => (.error e, tmpExists)
    | .ok bs => (.ok bs, false)

/-! ## `list_voices` implementations -/

/-- A raw item of the `/voices` JSON response in `stream/provider.py`;
each field is present or absent (`item.get`). -/
structure VoiceItem where
  id : Option String
  spk_id : Option String
  name : Option String
  title : Option String
  language : Option String
  gender : Option String
  sample_url : Option String
  description : Option String
deriving Repr, DecidableEq

/-- The `VoiceInfo` built from one JSON item in the `list_voices` of
`stream/provider.py`, with the `item.get` fallbacks. -/
def voiceItemToInfo (it : VoiceItem) : VoiceInfo :=
  mkVoiceInfo (it.id.getD (it.spk_id.getD "")) (it.name.getD (it.title.getD ""))
    "stream" (it.language.getD "zh") (it.gender.getD "")
    (it.sample_url.getD "") (it.description.getD "")

/-- Model of `list_voices` in `stream/provider.py`: the whole body sits inside
`try`; any failure of the voice source (network, HTTP status, JSON) is
logged and yields `[]`. -/
def streamPkg_list_voices (src : Except PyError (List VoiceItem)) : List VoiceInfo :=
  match src with
  | .error _ => []
  | .ok items => items.map voiceItemToInfo

/-- A voice object from the pyttsx3 call `engine.getProperty` for voices:
`voice.id` and `voice.name` when present, and `str(voice)`. -/
structure EngVoice where
  id : Option String
  name : Option String
  strForm : String
deriving Repr, DecidableEq

/-- Substring membership, the Python test `needle in hay`. -/
def strContainsSub (hay needle : String) : Bool :=
  (List.range (hay.data.length + 1)).any fun i => needle.data.isPrefixOf (hay.data.drop i)

/-- Model of `LocalTTSProvider._detect_language`. -/
def detect_language (voice_id voice_name : String) : String :=
  let combined := (voice_id ++ " " ++ voice_name).toLower
  if ["zh", "chinese", "mandarin", "cantonese"].any (fun kw => strContainsSub combined kw)
  then "zh"
  else if ["en", "english", "us", "uk", "gb"].any (fun kw => strContainsSub combined kw)
  then "en"
  else "zh"

/-- The `VoiceInfo` built from engine voice number `i` in
`LocalTTSProvider.list_voices`. -/
def engVoiceToInfo (i : Nat) (v : EngVoice) : VoiceInfo :=
  let voice_id := v.id.getD ("voice_" ++ toString i)
  let voice_name := v.name.getD ("Voice " ++ toString (i + 1))
  mkVoiceInfo voice_id voice_name "local" (detect_language voice_id voice_name)
    (if strContainsSub v.strForm.toLower "female" then "female" else "male") "" ""

/-- Model of `LocalTTSProvider.list_voices`: fetching the engine voices happens
inside `try`; on failure the `except` logs and the accumulated (empty)
list is returned. -/
def local_list_voices (src : Except PyError (List EngVoice)) : List VoiceInfo :=
  match src with
  | .error _ => []
  | .ok evs => evs.enum.map fun iv => engVoiceToInfo iv.1 iv.2

/-- The table `PRESET_VOICES` of `providers/edge/provider.py`, as
`(id, name, language, gender)`. -/
def PRESET_VOICES : List (String × String × String × String) :=
  [("zh-CN-XiaoxiaoNeural", "晓晓", "zh", "female"),
   ("zh-CN-YunxiNeural", "云希", "zh", "male"),
   ("zh-CN-YunjianNeural", "云健", "zh", "male"),
   ("zh-CN-XiaoyiNeural", "晓伊", "zh", "female"),
   ("zh-CN-YunyangNeural", "云扬", "zh", "male"),
   ("zh-CN-XiaochenNeural", "晓辰", "zh", "female"),
   ("zh-CN-XiaohanNeural", "晓涵", "zh", "female"),
   ("zh-CN-XiaomengNeural", "晓梦", "zh", "female"),
   ("zh-CN-XiaomoNeural", "晓墨", "zh", "female"),
   ("zh-CN-XiaoqiuNeural", "晓秋", "zh", "female"),
   ("zh-CN-XiaoruiNeural", "晓睿", "zh", "female"),
   ("zh-CN-XiaoshuangNeural", "晓双", "zh", "female"),
   ("zh-CN-XiaoxuanNeural", "晓萱", "zh", "female"),
   ("zh-CN-XiaoyanNeural", "晓颜", "zh", "female"),
   ("zh-CN-XiaoyouNeural", "晓悠", "zh", "female"),
   ("zh-CN-YunfengNeural", "云枫", "zh", "male"),
   ("zh-CN-YunhaoNeural", "云皓", "zh", "male"),
   ("zh-CN-YunxiaNeural", "云夏", "zh", "male"),
   ("zh-CN-YunyeNeural", "云野", "zh", "male"),
   ("zh-CN-YunzeNeural", "云泽", "zh", "male"),
   ("en-US-JennyNeural", "Jenny", "en", "female"),
   ("en-US-GuyNeural", "Guy", "en", "male")]

/-- Model of `EdgeTTSProvider.list_voices`: built from the static preset table,
with no fallible step at all. -/
def edge_list_voices : List VoiceInfo :=
  PRESET_VOICES.map fun q => mkVoiceInfo q.1 q.2.1 "edge" q.2.2.1 q.2.2.2 "" ""

/-! ## Observables used by the claim statements -/

/-- A lowercase hexadecimal digit. -/
def isLowerHexChar (c : Char) : Bool :=
  (48 ≤ c.toNat && c.toNat ≤ 57) || (97 ≤ c.toNat && c.toNat ≤ 102)

/-- No COMPLETED (`type = 1`) result occurs after an ERROR (`type = -1`)
result in a callback sequence. -/
def noCompletedAfterError : List TTSResult → Bool
  | [] => true
  | ev :: rest =>
    (!(ev.type == -1) || rest.all fun r => r.type != 1) && noCompletedAfterError rest

/-- The PROCESSING result the chunk loop of the client emits for one chunk. -/
def procResult (c : Bytes) : TTSResult := ⟨0, none, c, 0⟩

/-! ## Concrete instances used to evaluate the theorems -/

def sampleVoice : VoiceInfo := mkVoiceInfo "v1" "Voice One" "local" "zh" "female" "" ""

def sampleProvider : RProvider := ⟨"local", [sampleVoice], fun _ _ => .ok [[7]]⟩

def sampleRegistry : Registry := [("x", sampleProvider)]

/-! # Theorems

First some helper lemmas shared by several claims, then one theorem per
claim of the specification. -/

theorem runChunks_eq (audio : Bytes) (cs : List Bytes) :
    runChunks audio cs = (audio ++ cs.flatten, cs.map procResult) := by
  induction cs generalizing audio with
  | nil => simp [runChunks]
  | cons c cs ih => simp [runChunks, ih, procResult]

theorem noCompletedAfterError_procs (cs : List Bytes) (ev : TTSResult)
    (hev : noCompletedAfterError [ev] = true) :
    noCompletedAfterError (cs.map procResult ++ [ev]) = true := by
  induction cs with
  | nil => simpa using hev
  | cons c cs ih => simp_all [noCompletedAfterError, procResult]

theorem noCompletedAfterError_start (cl : TTSClient) :
    noCompletedAfterError cl.start.2.1 = true := by
  unfold TTSClient.start
  cases cl.provider cl.content cl.spk_id with
  | ok chunks =>
    simp only [runChunks_eq]
    exact noCompletedAfterError_procs chunks _ (by simp [noCompletedAfterError])
  | err chunks e =>
    simp only [runChunks_eq]
    exact noCompletedAfterError_procs chunks _ (by simp [noCompletedAfterError])

/-- C1: for every client with a progress callback set and a provider whose
`synthesize` yields exactly `[b1, b2, b3]` and then terminates, the first
call to `TTSClient.start()` returns `b1 ++ b2 ++ b3` in order, and the
callback is invoked exactly 4 times: three PROCESSING results carrying
`b1`, `b2`, `b3`, then one COMPLETED result carrying the concatenation. -/
theorem client_start_accumulation (content spk_id : String) (p : Provider)
    (b1 b2 b3 : Bytes) (h : p content spk_id = .ok [b1, b2, b3]) :
    (TTSClient.init content spk_id p).start =
      ({ content := content, spk_id := spk_id, audio := b1 ++ b2 ++ b3, provider := p },
       [procResult b1, procResult b2, procResult b3, ⟨1, none, b1 ++ b2 ++ b3, 0⟩],
       .ok (b1 ++ b2 ++ b3)) := by
  simp [TTSClient.start, TTSClient.init, h, runChunks_eq]

theorem client_start_accumulation_witness :
    (TTSClient.init "hello" "v" fun _ _ => SynthOutcome.ok [[1], [2], [3]]).start =
      ({ content := "hello", spk_id := "v", audio := [1, 2, 3],
         provider := fun _ _ => SynthOutcome.ok [[1], [2], [3]] },
       [procResult [1], procResult [2], procResult [3], ⟨1, none, [1, 2, 3], 0⟩],
       .ok [1, 2, 3]) := by
  have h := client_start_accumulation "hello" "v"
    (fun _ _ => SynthOutcome.ok [[1], [2], [3]]) [1] [2] [3] rfl
  simpa using h

/-- C2: if the `synthesize` of the provider yields `b1` and then raises `e`,
`TTSClient.start()` invokes the callback with PROCESSING(`b1`) then with
ERROR(`str(e)`), and raises `TTSError(str(e))` with `e` as its cause;
moreover no COMPLETED result is ever emitted after an ERROR result within
one call, for any client. -/
theorem client_start_error_translation (content spk_id : String) (p : Provider)
    (b1 : Bytes) (e : PyError) (h : p content spk_id = .err [b1] e) :
    (TTSClient.init content spk_id p).start.2 =
      ([procResult b1, ⟨-1, some e.msg, [], 0⟩], .error ⟨e.msg, e⟩)
    ∧ ∀ cl : TTSClient, noCompletedAfterError cl.start.2.1 = true := by
  refine ⟨?_, fun cl => noCompletedAfterError_start cl⟩
  simp [TTSClient.start, TTSClient.init, h, runChunks_eq]

theorem client_start_error_translation_witness :
    (TTSClient.init "hi" "v" fun _ _ => SynthOutcome.err [[9]] ⟨"boom"⟩).start.2 =
      ([procResult [9], ⟨-1, some "boom", [], 0⟩], .error ⟨"boom", ⟨"boom"⟩⟩)
    ∧ ∀ cl : TTSClient, noCompletedAfterError cl.start.2.1 = true := by
  exact client_start_error_translation "hi" "v"
    (fun _ _ => SynthOutcome.err [[9]] ⟨"boom"⟩) [9] ⟨"boom"⟩ rfl

/-- C10: `TTSClient.start()` appends to the persistent accumulator without
resetting it: with a provider yielding the same `chunks` on every call, the
first call returns their concatenation, and a second call on the same
client returns the previous buffer followed by the new chunks (the
concatenation doubled), whose COMPLETED result carries that doubled
buffer. -/
theorem client_start_no_reset (content spk_id : String) (p : Provider)
    (chunks : List Bytes) (h : p content spk_id = .ok chunks) :
    (TTSClient.init content spk_id p).start.2.2 = .ok chunks.flatten
    ∧ ((TTSClient.init content spk_id p).start.1).start.2 =
        (chunks.map procResult ++ [⟨1, none, chunks.flatten ++ chunks.flatten, 0⟩],
         .ok (chunks.flatten ++ chunks.flatten)) := by
  constructor
  · simp [TTSClient.start, TTSClient.init, h, runChunks_eq]
  · simp [TTSClient.start, TTSClient.init, h, runChunks_eq]

theorem client_start_no_reset_witness :
    (TTSClient.init "x" "v" fun _ _ => SynthOutcome.ok [[1], [2]]).start.2.2 =
      .ok [1, 2]
    ∧ ((TTSClient.init "x" "v" fun _ _ => SynthOutcome.ok [[1], [2]]).start.1).start.2 =
        ([procResult [1], procResult [2], ⟨1, none, [1, 2, 1, 2], 0⟩],
         .ok [1, 2, 1, 2]) := by
  have h := client_start_no_reset "x" "v"
    (fun _ _ => SynthOutcome.ok [[1], [2]]) [[1], [2]] rfl
  simpa using h

theorem list_all_voices_foldl (reg : Registry) (acc : List VoiceInfo) :
    reg.foldl
      (fun voices np => voices ++ np.2.voices.map fun v => { v with provider := np.1 }) acc =
      acc ++ (reg.map fun np => np.2.voices.map fun v => { v with provider := np.1 }).flatten := by
  induction reg generalizing acc with
  | nil => simp
  | cons np reg ih => simp [ih]

theorem list_all_voices_eq (reg : Registry) :
    list_all_voices reg =
      (reg.map fun np => np.2.voices.map fun v => { v with provider := np.1 }).flatten := by
  simpa using list_all_voices_foldl reg []

/-- C6: registering the same provider instance under "a" and "b" yields an
aggregated list whose voices carry the registration key under which they
were reached as `provider`, never the own default `name` of the provider. -/
theorem aggregation_overwrite (p : RProvider) (ha : p.pname ≠ "a") (hb : p.pname ≠ "b") :
    list_all_voices [("a", p), ("b", p)] =
      (p.voices.map fun v => { v with provider := "a" }) ++
        (p.voices.map fun v => { v with provider := "b" })
    ∧ ∀ v ∈ list_all_voices [("a", p), ("b", p)],
        (v.provider = "a" ∨ v.provider = "b") ∧ v.provider ≠ p.pname := by
  have heq : list_all_voices [("a", p), ("b", p)] =
      (p.voices.map fun v => { v with provider := "a" }) ++
        (p.voices.map fun v => { v with provider := "b" }) := by
    simp [list_all_voices_eq]
  refine ⟨heq, ?_⟩
  intro v hv
  rw [heq] at hv
  rcases List.mem_append.1 hv with hl | hr
  · obtain ⟨w, _, rfl⟩ := List.mem_map.1 hl
    exact ⟨Or.inl rfl, fun hc => ha hc.symm⟩
  · obtain ⟨w, _, rfl⟩ := List.mem_map.1 hr
    exact ⟨Or.inr rfl, fun hc => hb hc.symm⟩

theorem aggregation_overwrite_witness :
    list_all_voices [("a", sampleProvider), ("b", sampleProvider)] =
      (sampleProvider.voices.map fun v => { v with provider := "a" }) ++
        (sampleProvider.voices.map fun v => { v with provider := "b" })
    ∧ ∀ v ∈ list_all_voices [("a", sampleProvider), ("b", sampleProvider)],
        (v.provider = "a" ∨ v.provider = "b") ∧ v.provider ≠ sampleProvider.pname := by
  exact aggregation_overwrite sampleProvider (by decide) (by decide)

/-- C7 counterexample: the provider name `""` was never registered, yet
`synthesize` raises no "Provider not found" error; `if provider_name:`
treats the empty string as falsy, so the call falls through to the
first-registered-provider branch and returns its audio. -/
theorem registry_empty_name_counterexample :
    regGet sampleRegistry "" = none
    ∧ registry_synthesize sampleRegistry "t" "s" (some "") ≠
        .error (.valueError ("Provider not found: " ++ ""))
    ∧ registry_synthesize sampleRegistry "t" "s" (some "") = .ok [7] := by
  have heq : registry_synthesize sampleRegistry "t" "s" (some "") = .ok [7] := rfl
  exact ⟨rfl, by simp [heq], heq⟩

/-- C7 (amended): `synthesize` raises "Provider not found" whenever a
non-empty provider name is given that was never registered (the empty
string is falsy and is treated as no name); with no name and zero
registered providers it raises the distinct "No provider registered"
error; with no name and at least one provider it uses the first registered
provider and returns its concatenated chunk sequence. -/
theorem registry_synthesize_lookup (reg : Registry) (text spk_id n : String)
    (hn : n ≠ "") (hget : regGet reg n = none)
    (k : String) (p : RProvider) (chunks : List Bytes)
    (hhead : reg.head? = some (k, p)) (hout : p.synth text spk_id = .ok chunks) :
    registry_synthesize reg text spk_id (some n) =
      .error (.valueError ("Provider not found: " ++ n))
    ∧ (∀ t s : String, registry_synthesize [] t s none =
        .error (.valueError "No provider registered"))
    ∧ registry_synthesize reg text spk_id none = .ok chunks.flatten := by
  refine ⟨?_, fun t s => rfl, ?_⟩
  · simp [registry_synthesize, truthyName, hn, hget]
  · simp [registry_synthesize, truthyName, hhead, accumulate, hout]

theorem registry_synthesize_lookup_witness :
    registry_synthesize sampleRegistry "t" "s" (some "ghost") =
      .error (.valueError ("Provider not found: " ++ "ghost"))
    ∧ (∀ t s : String, registry_synthesize [] t s none =
        .error (.valueError "No provider registered"))
    ∧ registry_synthesize sampleRegistry "t" "s" none = .ok ([[7]] : List Bytes).flatten := by
  exact registry_synthesize_lookup sampleRegistry "t" "s" "ghost" (by decide) rfl
    "x" sampleProvider [[7]] rfl rfl

/-- C9: every voice returned by `list_all_voices` is one of a registered
voices of a registered provider with only the `provider` field overwritten: `id`,
`name`, `language`, `gender`, `sample_url`, `description` and `hash_id`
are unchanged; and the `hash_id` of a constructed voice stays the value
derived from its original `provider` argument even after the overwrite. -/
theorem aggregation_preserves_fields (reg : Registry) (w : VoiceInfo)
    (hw : w ∈ list_all_voices reg) :
    (∃ np ∈ reg, ∃ v ∈ np.2.voices,
      w = { v with provider := np.1 } ∧ w.id = v.id ∧ w.name = v.name ∧
      w.language = v.language ∧ w.gender = v.gender ∧ w.sample_url = v.sample_url ∧
      w.description = v.description ∧ w.hash_id = v.hash_id)
    ∧ ∀ nm i n pr l g su d : String,
        ({ mkVoiceInfo i n pr l g su d with provider := nm }).hash_id =
          generate_hash_id pr i l := by
  constructor
  · rw [list_all_voices_eq] at hw
    rw [List.mem_flatten] at hw
    obtain ⟨vs, hvs, hwvs⟩ := hw
    obtain ⟨np, hnp, rfl⟩ := List.mem_map.1 hvs
    obtain ⟨v, hv, rfl⟩ := List.mem_map.1 hwvs
    exact ⟨np, hnp, v, hv, rfl, rfl, rfl, rfl, rfl, rfl, rfl, rfl⟩
  · intro nm i n pr l g su d; rfl

theorem aggregation_preserves_fields_witness :
    (∃ np ∈ sampleRegistry, ∃ v ∈ np.2.voices,
      ({ sampleVoice with provider := "x" } : VoiceInfo) = { v with provider := np.1 } ∧
      ({ sampleVoice with provider := "x" } : VoiceInfo).id = v.id ∧
      ({ sampleVoice with provider := "x" } : VoiceInfo).name = v.name ∧
      ({ sampleVoice with provider := "x" } : VoiceInfo).language = v.language ∧
      ({ sampleVoice with provider := "x" } : VoiceInfo).gender = v.gender ∧
      ({ sampleVoice with provider := "x" } : VoiceInfo).sample_url = v.sample_url ∧
      ({ sampleVoice with provider := "x" } : VoiceInfo).description = v.description ∧
      ({ sampleVoice with provider := "x" } : VoiceInfo).hash_id = v.hash_id)
    ∧ ∀ nm i n pr l g su d : String,
        ({ mkVoiceInfo i n pr l g su d with provider := nm }).hash_id =
          generate_hash_id pr i l := by
  exact aggregation_preserves_fields sampleRegistry { sampleVoice with provider := "x" }
    (by rw [list_all_voices_eq]; simp [sampleRegistry, sampleProvider])

theorem chunksOf_flatten_aux {α : Type} (n : Nat) (hn : 0 < n) :
    ∀ len : Nat, ∀ l : List α, l.length ≤ len → (chunksOf n l).flatten = l := by
  intro len
  induction len with
  | zero =>
    intro l hl
    have h0 : l = [] := List.length_eq_zero.1 (Nat.le_zero.1 hl)
    subst h0
    rw [chunksOf]
    simp
  | succ len ih =>
    intro l hl
    rw [chunksOf]
    split
    · rename_i h
      rcases h with h | h
      · omega
      · simp [List.length_eq_zero.1 h]
    · rename_i h
      push_neg at h
      rw [List.flatten_cons, ih (l.drop n) (by simp [List.length_drop]; omega)]
      exact List.take_append_drop n l

theorem chunksOf_flatten {α : Type} (n : Nat) (hn : 0 < n) (l : List α) :
    (chunksOf n l).flatten = l :=
  chunksOf_flatten_aux n hn l.length l (Nat.le_refl _)

theorem chunksOf_mem_aux {α : Type} (n : Nat) :
    ∀ len : Nat, ∀ l : List α, l.length ≤ len →
      ∀ c ∈ chunksOf n l, c.length ≤ n ∧ c ≠ [] := by
  intro len
  induction len with
  | zero =>
    intro l hl c hc
    have h0 : l = [] := List.length_eq_zero.1 (Nat.le_zero.1 hl)
    subst h0
    rw [chunksOf] at hc
    simp at hc
  | succ len ih =>
    intro l hl c hc
    rw [chunksOf] at hc
    split at hc
    · simp at hc
    · rename_i h
      push_neg at h
      rcases List.mem_cons.1 hc with rfl | hrest
      · refine ⟨List.length_take_le n l, ?_⟩
        have hmin : (l.take n).length = min n l.length := List.length_take n l
        intro hnil
        rw [hnil] at hmin
        simp at hmin
        omega
      · exact ih (l.drop n) (by simp [List.length_drop]; omega) c hrest

theorem chunksOf_mem {α : Type} (n : Nat) (l : List α) :
    ∀ c ∈ chunksOf n l, c.length ≤ n ∧ c ≠ [] :=
  chunksOf_mem_aux n l.length l (Nat.le_refl _)

theorem chunksOf_ne_nil_iff {α : Type} (n : Nat) (l : List α) :
    chunksOf n l ≠ [] ↔ (0 < n ∧ l ≠ []) := by
  rw [chunksOf]
  split
  · rename_i h
    simp only [ne_eq, not_true_eq_false, false_iff]
    rcases h with h | h
    · intro hc
      omega
    · intro hc
      exact hc.2 (List.length_eq_zero.1 h)
  · rename_i h
    push_neg at h
    constructor
    · intro _
      exact ⟨by omega, fun hc => h.2 (by simp [hc])⟩
    · intro _
      simp

theorem chunksOf_dropLast_aux {α : Type} (n : Nat) :
    ∀ len : Nat, ∀ l : List α, l.length ≤ len →
      ∀ c ∈ (chunksOf n l).dropLast, c.length = n := by
  intro len
  induction len with
  | zero =>
    intro l hl c hc
    have h0 : l = [] := List.length_eq_zero.1 (Nat.le_zero.1 hl)
    subst h0
    rw [chunksOf] at hc
    simp at hc
  | succ len ih =>
    intro l hl c hc
    rw [chunksOf] at hc
    split at hc
    · simp at hc
    · rename_i h
      push_neg at h
      by_cases hrest : chunksOf n (l.drop n) = []
      · rw [hrest] at hc
        simp at hc
      · rw [List.dropLast_cons_of_ne_nil hrest] at hc
        rcases List.mem_cons.1 hc with rfl | hc2
        · have hlen := (chunksOf_ne_nil_iff n (l.drop n)).1 hrest
          have hld : 0 < (l.drop n).length := List.length_pos.2 hlen.2
          rw [List.length_drop] at hld
          rw [List.length_take]
          omega
        · exact ih (l.drop n) (by simp [List.length_drop]; omega) c hc2

theorem chunksOf_dropLast_length {α : Type} (n : Nat) (l : List α) :
    ∀ c ∈ (chunksOf n l).dropLast, c.length = n :=
  chunksOf_dropLast_aux n l.length l (Nat.le_refl _)

theorem md5Digest_length (msg : Bytes) : (md5Digest msg).length = 16 := by
  simp [md5Digest, le4]

theorem md5Digest_lt (msg : Bytes) : ∀ b ∈ md5Digest msg, b < 256 := by
  intro b hb
  simp only [md5Digest, le4, List.mem_append, List.mem_cons, List.not_mem_nil, or_false] at hb
  rcases hb with ((h|h|h|h)|(h|h|h|h)) | ((h|h|h|h)|(h|h|h|h)) <;> omega

theorem hexChars_length (d : Bytes) : (hexChars d).length = 2 * d.length := by
  induction d with
  | nil => rfl
  | cons b d ih =>
    have hsplit : hexChars (b :: d) = byteToHex b ++ hexChars d := by
      simp [hexChars]
    rw [hsplit, List.length_append, ih]
    simp only [byteToHex, List.length_cons, List.length_nil]
    omega

theorem isLowerHexChar_hexDigitChar : ∀ n, n < 16 → isLowerHexChar (hexDigitChar n) = true := by
  decide

theorem hexChars_all (d : Bytes) (hd : ∀ b ∈ d, b < 256) :
    ∀ c ∈ hexChars d, isLowerHexChar c = true := by
  intro c hc
  simp only [hexChars, List.mem_flatten, List.mem_map] at hc
  obtain ⟨cs, ⟨b, hb, rfl⟩, hcb⟩ := hc
  simp only [byteToHex, List.mem_cons, List.not_mem_nil, or_false] at hcb
  rcases hcb with rfl | rfl
  · exact isLowerHexChar_hexDigitChar _ (by have := hd b hb; omega)
  · exact isLowerHexChar_hexDigitChar _ (by have := hd b hb; omega)

/-- C5: `_generate_hash_id` returns a 16-character lowercase hexadecimal
string, the first 16 hex characters of the 128-bit MD5 digest of
`"{provider}:{id}:{language}"`; it is deterministic, and two `VoiceInfo`
values constructed with identical `(provider, id, language)` carry
identical `hash_id` whatever their other fields. -/
theorem hash_id_contract (provider id language : String) :
    (generate_hash_id provider id language).length = 16
    ∧ (∀ c ∈ (generate_hash_id provider id language).data, isLowerHexChar c = true)
    ∧ (generate_hash_id provider id language).data =
        (hexdigest (md5Digest (strUtf8 (provider ++ ":" ++ id ++ ":" ++ language)))).data.take 16
    ∧ ∀ n1 g1 s1 d1 n2 g2 s2 d2 : String,
        (mkVoiceInfo id n1 provider language g1 s1 d1).hash_id =
          (mkVoiceInfo id n2 provider language g2 s2 d2).hash_id := by
  refine ⟨?_, ?_, rfl, fun _ _ _ _ _ _ _ _ => rfl⟩
  · show (String.mk _).length = 16
    have h32 : (hexChars (md5Digest
        (strUtf8 (provider ++ ":" ++ id ++ ":" ++ language)))).length = 32 := by
      rw [hexChars_length, md5Digest_length]
    simp [String.length, List.length_take, h32]
  · intro c hc
    have hc2 : c ∈ hexChars (md5Digest
        (strUtf8 (provider ++ ":" ++ id ++ ":" ++ language))) :=
      List.take_subset 16 _ hc
    exact hexChars_all _ (md5Digest_lt _) c hc2

/-- C3: the claim that every temp-file-based provider deletes its temp
file on every exit path holds for the edge provider (whose cleanup sits in
`finally`) but is violated by `LocalTTSProvider.synthesize`: when saving
or reading raises, `os.unlink` is never reached and the temp file remains;
on the success path it is deleted. -/
theorem temp_file_cleanup_divergence :
    (∀ r : EdgeRun, (edge_synthesize_async r).2 = false)
    ∧ local_synthesize ⟨.error ⟨"engine failure"⟩, .ok []⟩ =
        (.error ⟨"engine failure"⟩, true)
    ∧ ∀ bs : Bytes, local_synthesize ⟨.ok (), .ok bs⟩ = (.ok bs, false) := by
  refine ⟨?_, rfl, fun bs => rfl⟩
  intro r
  rcases r with ⟨saveStep, readStep⟩
  rcases saveStep with e | u <;> rcases readStep with e2 | bs <;> rfl

/-- C8: no modelled `list_voices` propagates a failure of its voice
source: the stream and local providers return `[]` when the source fails,
the base implementation (inherited by the facade-exported stream provider) is the
constant `[]`, and the edge-provider list is built from a static table
with no fallible step. -/
theorem list_voices_total :
    (∀ e : PyError, streamPkg_list_voices (.error e) = [])
    ∧ (∀ e : PyError, local_list_voices (.error e) = [])
    ∧ (∀ p : StreamTTSProvider, p.list_voices = [])
    ∧ edge_list_voices.length = PRESET_VOICES.length := by
  exact ⟨fun e => rfl, fun e => rfl, fun p => rfl, by simp [edge_list_voices]⟩

/-- C4: the facade-exported stream provider POSTs form fields `text` and
`spk_id` — the latter equal to the resolution the spec describes (reverse hash-id
lookup over the `list_voices` of the provider, falling back to the given id
verbatim; the inherited `list_voices` is empty, so the fallback applies) —
to its configured URL; the default chunk size is 4096; a 4xx/5xx status
raises; otherwise the body is consumed as consecutive chunks of
`chunk_size` bytes (all full-size except possibly the last, none empty)
whose concatenation is the body. -/
theorem stream_wire_contract (url : Option String) (text spk_id : String)
    (resp : HttpResponse) (hok : raiseForStatus resp.status = false) :
    (mkStreamTTSProviderDefault url).chunk_size = 4096
    ∧ (mkStreamTTSProviderDefault url).request text spk_id =
        ⟨(mkStreamTTSProviderDefault url).url,
         [("text", text),
          ("spk_id", resolveSpkId (mkStreamTTSProviderDefault url).list_voices spk_id)],
         true⟩
    ∧ (∀ r : HttpResponse, raiseForStatus r.status = true →
        (mkStreamTTSProviderDefault url).consume r =
          .error ⟨"HTTP error " ++ toString r.status⟩)
    ∧ (mkStreamTTSProviderDefault url).consume resp = .ok (chunksOf 4096 resp.body)
    ∧ (chunksOf 4096 resp.body).flatten = resp.body
    ∧ (∀ c ∈ chunksOf 4096 resp.body, c.length ≤ 4096 ∧ c ≠ [])
    ∧ ∀ c ∈ (chunksOf 4096 resp.body).dropLast, c.length = 4096 := by
  refine ⟨rfl, ?_, ?_, ?_, chunksOf_flatten 4096 (by omega) resp.body,
    chunksOf_mem 4096 resp.body, chunksOf_dropLast_length 4096 resp.body⟩
  · simp [StreamTTSProvider.request, resolveSpkId, StreamTTSProvider.list_voices,
      find_voice_by_hash_id]
  · intro r hr
    simp [StreamTTSProvider.consume, hr]
  · have hfil : (chunksOf 4096 resp.body).filter (fun c => !c.isEmpty) =
        chunksOf 4096 resp.body := by
      apply List.filter_eq_self.2
      intro c hc
      have := (chunksOf_mem 4096 resp.body c hc).2
      simp [List.isEmpty_iff, this]
    simp [StreamTTSProvider.consume, hok, hfil, mkStreamTTSProviderDefault,
      mkStreamTTSProvider]

theorem stream_wire_contract_witness :
    (mkStreamTTSProviderDefault none).chunk_size = 4096
    ∧ (mkStreamTTSProviderDefault none).request "hello" "spk1" =
        ⟨(mkStreamTTSProviderDefault none).url,
         [("text", "hello"),
          ("spk_id", resolveSpkId (mkStreamTTSProviderDefault none).list_voices "spk1")],
         true⟩
    ∧ (∀ r : HttpResponse, raiseForStatus r.status = true →
        (mkStreamTTSProviderDefault none).consume r =
          .error ⟨"HTTP error " ++ toString r.status⟩)
    ∧ (mkStreamTTSProviderDefault none).consume ⟨200, [1, 2, 3]⟩ =
        .ok (chunksOf 4096 [1, 2, 3])
    ∧ (chunksOf 4096 ([1, 2, 3] : Bytes)).flatten = [1, 2, 3]
    ∧ (∀ c ∈ chunksOf 4096 ([1, 2, 3] : Bytes), c.length ≤ 4096 ∧ c ≠ [])
    ∧ ∀ c ∈ (chunksOf 4096 ([1, 2, 3] : Bytes)).dropLast, c.length = 4096 := by
  exact stream_wire_contract none "hello" "spk1" ⟨200, [1, 2, 3]⟩ rfl

end TextToSpeech
